import Mathlib

/-!
A shallow embedding of `src/decoder.c` (a single-pass CBOR decoder) and a
verification of its specification claims.

Bytes are modelled as `Nat` values (< 256 for genuine byte inputs); buffer
memory is a `List Nat`; `size_t` cursors are `Nat`.  The build models the
default little-endian host (`CBOR_BIG_ENDIAN` undefined), so `copy_data`
is `copy_data_le`.  The decoder state invariant `msgidx ≤ msgsize` holds at
every call site of the bounds validator, where `Nat` truncated subtraction
coincides with the C `size_t` subtraction.

General recursion (`decode_cbor` and its item loop call each other, and
container items re-enter `decode_cbor`) is embedded with a fuel parameter;
every continuing iteration strictly advances the input cursor, so fuel
`2 * msgsize + 2` suffices (theorem `decode_cbor_fuel_sufficient` below),
and the entry point `cbor_decode` runs with exactly that fuel.
-/

namespace Cbor

/-- `cbor_error_t` result codes from `cbor.h`. -/
inductive CborError where
  | CBOR_SUCCESS
  | CBOR_ILLEGAL
  | CBOR_INVALID
  | CBOR_UNDERRUN
  | CBOR_OVERRUN
  | CBOR_BREAK
  | CBOR_EXCESSIVE
  deriving DecidableEq, Repr

open CborError

/-- `#define INDEFINITE_VALUE ((uint8_t)-1)` -/
def INDEFINITE_VALUE : Nat := 255

/-- `#define RESERVED_VALUE ((uint8_t)-2)` -/
def RESERVED_VALUE : Nat := 254

/-- `#define get_major_type(data_item) ((data_item) >> 5)` -/
def get_major_type (data_item : Nat) : Nat := data_item / 32

/-- `#define get_additional_info(major_type) ((major_type) & 0x1fu)` -/
def get_additional_info (b : Nat) : Nat := b % 32

/-- `struct decode_context`.  `bufsize`/`msgsize` are the (constant) lengths
of the two buffers, recovered from the lists below. -/
structure DecodeContext where
  buf : List Nat
  bufidx : Nat
  msg : List Nat
  msgidx : Nat
  major_type : Nat
  additional_info : Nat
  following_bytes : Nat
  recursion_depth : Nat
  deriving DecidableEq, Repr

def DecodeContext.bufsize (ctx : DecodeContext) : Nat := ctx.buf.length

def DecodeContext.msgsize (ctx : DecodeContext) : Nat := ctx.msg.length

/-- `copy_data_le(dst + d, src + s, len)`:
`for i < len: dst[d + len - i - 1] = src[s + i]` (byte-order reversal). -/
def copy_data_le (dst : List Nat) (d : Nat) (src : List Nat) (s len : Nat) :
    List Nat :=
  (List.range len).foldl
    (fun acc i => acc.set (d + (len - i - 1)) (src.getD (s + i) 0)) dst

/-- `copy_data_be(dst + d, src + s, len)`: `for i < len: dst[d+i] = src[s+i]`. -/
def copy_data_be (dst : List Nat) (d : Nat) (src : List Nat) (s len : Nat) :
    List Nat :=
  (List.range len).foldl
    (fun acc i => acc.set (d + i) (src.getD (s + i) 0)) dst

/-- `copy_data` on a little-endian host (`CBOR_BIG_ENDIAN` undefined). -/
def copy_data (dst : List Nat) (d : Nat) (src : List Nat) (s len : Nat) :
    List Nat :=
  copy_data_le dst d src s len

/-- `uint64_t val = 0; copy_data_be((uint8_t *)&val, src + s, len)` read on a
little-endian host: memory byte `i` of `val` has weight `256^i`. -/
def read_val_be (src : List Nat) (s len : Nat) : Nat :=
  (List.range len).foldl (fun acc i => acc + src.getD (s + i) 0 * 256 ^ i) 0

/-- `copy_data_be(dst + d, (uint8_t *)&val, len)` write-back on a
little-endian host: `dst[d+i]` receives memory byte `i` of `val`. -/
def write_val_be (dst : List Nat) (d : Nat) (val len : Nat) : List Nat :=
  (List.range len).foldl
    (fun acc i => acc.set (d + i) (val / 256 ^ i % 256)) dst

/-- `uint64_t len = 0; copy_data((uint8_t *)&len, src + s, n)` on a
little-endian host: `copy_data_le` reverses the wire bytes into the value's
memory, so the wire bytes are accumulated big-endian. -/
def read_val_wire (src : List Nat) (s n : Nat) : Nat :=
  (List.range n).foldl
    (fun acc i => acc + src.getD (s + i) 0 * 256 ^ (n - i - 1)) 0

/-- `get_following_bytes` (decoder.c:81–92); the result of
`1u << (additional_info - 24)` is cast to `uint8_t`. -/
def get_following_bytes (additional_info : Nat) : Nat :=
  if additional_info < 24 then 0
  else if additional_info = 31 then INDEFINITE_VALUE
  else if 28 ≤ additional_info then RESERVED_VALUE
  else 2 ^ (additional_info - 24) % 256

/-- `has_valid_buffers_for_following_bytes` (decoder.c:94–114).
`none` models returning `true` (the out-parameter `err` untouched);
`some e` models returning `false` with `*err = e`. -/
def has_valid_buffers_for_following_bytes (ctx : DecodeContext) :
    Option CborError :=
  if ctx.following_bytes = RESERVED_VALUE then some CBOR_ILLEGAL
  else if ctx.following_bytes = INDEFINITE_VALUE then none
  else if ctx.following_bytes + 1 > ctx.msgsize - ctx.msgidx then
    some CBOR_ILLEGAL
  else if ctx.following_bytes > ctx.bufsize - ctx.bufidx then
    some CBOR_UNDERRUN
  else none

/-- `do_unsigned_integer` (decoder.c:160–178).  The local `buf`/`msg`
pointers are captured before the inline-value branch advances `bufidx`,
so the copy targets the entry value of `bufidx`. -/
def do_unsigned_integer (ctx : DecodeContext) : DecodeContext × CborError :=
  let base := ctx.bufidx
  if ctx.following_bytes = INDEFINITE_VALUE then (ctx, CBOR_ILLEGAL)
  else
    let ctx1 :=
      if ctx.following_bytes = 0 then
        { ctx with buf := ctx.buf.set base ctx.additional_info,
                   bufidx := base + 1 }
      else ctx
    ({ ctx1 with
        buf := copy_data ctx1.buf base ctx.msg (ctx.msgidx + 1)
          ctx.following_bytes,
        bufidx := ctx1.bufidx + ctx.following_bytes,
        msgidx := ctx.msgidx + ctx.following_bytes + 1 }, CBOR_SUCCESS)

/-- `do_negative_integer` (decoder.c:180–218).  `data_type_size <<= 1`
followed by `bufidx += data_type_size - data_size` advances the write
cursor by `data_size`; the write-back uses the unpromoted `data_size`. -/
def do_negative_integer (ctx : DecodeContext) : DecodeContext × CborError :=
  let buf_start_index := ctx.bufidx
  let r := do_unsigned_integer ctx
  if r.2 ≠ CBOR_SUCCESS then r
  else
    let ctx1 := r.1
    let data_size := ctx1.bufidx - buf_start_index
    let msb_bit := data_size * 8 - 1
    let val := read_val_be ctx1.buf buf_start_index data_size
    let ctx2 :=
      if data_size < 8 ∧ Nat.testBit val msb_bit then
        { ctx1 with bufidx := ctx1.bufidx + data_size }
      else ctx1
    let val2 := 2 ^ 64 - 1 - val
    let buf3 := (List.range (min (ctx.bufsize - buf_start_index) 4)).foldl
      (fun acc i => acc.set (buf_start_index + i) 255) ctx2.buf
    ({ ctx2 with buf := write_val_be buf3 buf_start_index val2 data_size },
      CBOR_SUCCESS)

/-- `go_get_item_length` (decoder.c:220–238). -/
def go_get_item_length (ctx : DecodeContext) : DecodeContext × Nat :=
  if ctx.following_bytes = INDEFINITE_VALUE then
    ({ ctx with msgidx := ctx.msgidx + 1 }, 0)
  else if ctx.following_bytes = 0 then
    ({ ctx with msgidx := ctx.msgidx + 1 }, ctx.additional_info)
  else
    ({ ctx with msgidx := ctx.msgidx + ctx.following_bytes + 1 },
      read_val_wire ctx.msg (ctx.msgidx + 1) ctx.following_bytes)

/-- `do_string` (decoder.c:240–261). -/
def do_string (ctx : DecodeContext) : DecodeContext × CborError :=
  let r := go_get_item_length ctx
  let ctx1 := r.1
  let len := r.2
  let maxlen := min (ctx1.bufsize - ctx1.bufidx) (ctx1.msgsize - ctx1.msgidx)
  if len > maxlen then (ctx1, CBOR_ILLEGAL)
  else
    ({ ctx1 with
        buf := copy_data_be ctx1.buf ctx1.bufidx ctx1.msg ctx1.msgidx len,
        bufidx := ctx1.bufidx + len,
        msgidx := ctx1.msgidx + len }, CBOR_SUCCESS)

/-- `do_tag` (decoder.c:269–273): tags are unsupported. -/
def do_tag (ctx : DecodeContext) : DecodeContext × CborError :=
  (ctx, CBOR_INVALID)

/-- `get_simple_value` (decoder.c:275–288). -/
def get_simple_value (val : Nat) : Nat :=
  if val = 20 then 0
  else if val = 21 then 1
  else if val = 22 then 0
  else val

/-- `do_float_and_other` (decoder.c:290–314).  In the one-extension-byte
branch `ctx->additional_info = ctx->msg[++ctx->msgidx]` pre-increments the
read cursor. -/
def do_float_and_other (ctx : DecodeContext) : DecodeContext × CborError :=
  if ctx.following_bytes = INDEFINITE_VALUE then
    ({ ctx with msgidx := ctx.msgidx + 1 }, CBOR_BREAK)
  else
    let ctx0 :=
      if ctx.following_bytes = 1 then
        { ctx with following_bytes := 0,
                   msgidx := ctx.msgidx + 1,
                   additional_info := ctx.msg.getD (ctx.msgidx + 1) 0 }
      else ctx
    match has_valid_buffers_for_following_bytes ctx0 with
    | some err => (ctx0, err)
    | none =>
      let r := do_unsigned_integer ctx0
      let ctx1 := r.1
      if ctx1.following_bytes = 0 then
        ({ ctx1 with
            buf := ctx1.buf.set (ctx1.bufidx - 1)
              (get_simple_value (ctx1.buf.getD (ctx1.bufidx - 1) 0)) }, r.2)
      else r

/-- The `while` loop of `decode_cbor` (decoder.c:125–150), fuel-indexed;
`item` is the loop's item counter and `dc` is the recursive decoder the
container cases (4, 5: `do_recursive`, decoder.c:263–266) re-enter after
resolving the item count.  `callbacks[ctx->major_type]` is dispatched by a
match on the 3-bit major type (for byte inputs the catch-all is major type
7).  `none` means the fuel ran out. -/
def decode_loop_with
    (dc : DecodeContext → Nat → Option (DecodeContext × CborError)) :
    Nat → DecodeContext → Nat → Nat → Option (DecodeContext × CborError)
  | 0, _, _, _ => none
  | fuel + 1, ctx, maxitem, item =>
    if ctx.msgidx < ctx.msgsize ∧ ctx.bufidx < ctx.bufsize then
      let b := ctx.msg.getD ctx.msgidx 0
      let ctx := { ctx with
        major_type := get_major_type b,
        additional_info := get_additional_info b,
        following_bytes := get_following_bytes (get_additional_info b) }
      match has_valid_buffers_for_following_bytes ctx with
      | some err => some (ctx, err)
      | none =>
        let res : Option (DecodeContext × CborError) :=
          match ctx.major_type with
          | 0 => some (do_unsigned_integer ctx)
          | 1 => some (do_negative_integer ctx)
          | 2 => some (do_string ctx)
          | 3 => some (do_string ctx)
          | 4 =>
            let r := go_get_item_length ctx
            dc r.1 r.2
          | 5 =>
            let r := go_get_item_length ctx
            dc r.1 r.2
          | 6 => some (do_tag ctx)
          | _ => some (do_float_and_other ctx)
        match res with
        | none => none
        | some (ctx', err) =>
          if err = CBOR_BREAK ∧ ctx'.msgidx = ctx'.msgsize then
            some (ctx', err)
          else if err ≠ CBOR_BREAK ∧ err ≠ CBOR_SUCCESS then
            some (ctx', err)
          else if item + 1 ≥ maxitem ∧ maxitem > 0 then
            some (ctx', CBOR_SUCCESS)
          else decode_loop_with dc fuel ctx' maxitem (item + 1)
    else some (ctx, CBOR_SUCCESS)

/-- `decode_cbor` (decoder.c:116–158), fuel-indexed.  Increments the
recursion depth on entry; the depth-limit early return (`CBOR_EXCESSIVE`)
leaves the incremented depth in place, every other exit decrements once.
`none` means the fuel ran out (unreachable for fuel `2*msgsize + 2`,
see `decode_cbor_fuel_sufficient`). -/
def decode_cbor : Nat → Nat → DecodeContext → Nat →
    Option (DecodeContext × CborError)
  | 0, _, _, _ => none
  | fuel + 1, maxLevel, ctx, maxitem =>
    let ctx := { ctx with recursion_depth := ctx.recursion_depth + 1 }
    if ctx.recursion_depth > maxLevel then some (ctx, CBOR_EXCESSIVE)
    else
      match decode_loop_with (fun c mi => decode_cbor fuel maxLevel c mi)
          fuel ctx maxitem 0 with
      | none => none
      | some (ctx', err) =>
        some ({ ctx' with recursion_depth := ctx'.recursion_depth - 1 }, err)

/-- The decode loop as invoked at a given fuel level. -/
def decode_loop (fuel maxLevel : Nat) (ctx : DecodeContext)
    (maxitem item : Nat) : Option (DecodeContext × CborError) :=
  decode_loop_with (fun c mi => decode_cbor fuel maxLevel c mi)
    fuel ctx maxitem item

/-- The fuel `cbor_decode` supplies; sufficient by
`decode_cbor_fuel_sufficient`. -/
def initial_fuel (msg : List Nat) : Nat := 2 * msg.length + 2

/-- The initial decode context built by `cbor_decode` (decoder.c:319–326);
designated initializers zero the remaining fields. -/
def init_context (buf msg : List Nat) : DecodeContext :=
  { buf := buf, bufidx := 0, msg := msg, msgidx := 0,
    major_type := 0, additional_info := 0, following_bytes := 0,
    recursion_depth := 0 }

/-- `cbor_decode` (decoder.c:316–339).  `maxLevel` stands for the
compile-time constant `CBOR_RECURSION_MAX_LEVEL` from `cbor.h` (not under
`src/`; the `_Static_assert` requires it `< 256`).  Returns the final
context (the caller-visible memory of `buf`) together with the result code.
The `none` fuel-exhaustion branch is unreachable
(`decode_cbor_fuel_sufficient`). -/
def cbor_decode (maxLevel : Nat) (buf msg : List Nat) :
    DecodeContext × CborError :=
  let ctx := init_context buf msg
  match decode_cbor (initial_fuel msg) maxLevel ctx 0 with
  | none => (ctx, CBOR_SUCCESS)
  | some (ctx', err) =>
    if err = CBOR_SUCCESS then
      if ctx'.msgidx < ctx'.msgsize then (ctx', CBOR_OVERRUN)
      else if ctx'.bufidx < ctx'.bufsize then (ctx', CBOR_UNDERRUN)
      else (ctx', CBOR_SUCCESS)
    else (ctx', err)

/-! Spec-side definitions used to state claims. -/

/-- Spec §2/§4.1: the following-bytes descriptor — a byte count or one of
the two control sentinels, "distinguishable from all valid counts by
construction". -/
inductive FollowingBytesSpec where
  | count (n : Nat)
  | indefinite
  | reserved
  deriving DecidableEq, Repr

/-- Spec §4.1 rule, verbatim: additional-info < 24 ⇒ 0; == 31 ⇒ INDEFINITE;
in [28,30] ⇒ RESERVED; in [24,27] ⇒ 2^(additional-info − 24). -/
def spec_following_bytes (ai : Nat) : FollowingBytesSpec :=
  if ai < 24 then .count 0
  else if ai = 31 then .indefinite
  else if 28 ≤ ai ∧ ai ≤ 30 then .reserved
  else .count (2 ^ (ai - 24))

/-- The sentinel encoding the implementation uses for the descriptor. -/
def encode_descriptor : FollowingBytesSpec → Nat
  | .count n => n
  | .indefinite => INDEFINITE_VALUE
  | .reserved => RESERVED_VALUE

/-- The little-endian byte string of the `w`-byte two's-complement
representation of `-m` (that is, of `2^(8w) - m`). -/
def twosComplementBytesLE (m w : Nat) : List Nat :=
  (List.range w).map fun i => (2 ^ (8 * w) - m) / 256 ^ i % 256

/-- The amended depth discipline of the decode loop: an exit carrying
`CBOR_EXCESSIVE` (the depth-limit early return, at this or a nested level)
leaves the recursion depth one above its entry value `d`; every other exit
restores it to `d` exactly. -/
def DepthSpec (d : Nat) (out : DecodeContext × CborError) : Prop :=
  (out.2 = CborError.CBOR_EXCESSIVE ∧ out.1.recursion_depth = d + 1) ∨
  (out.2 ≠ CborError.CBOR_EXCESSIVE ∧ out.1.recursion_depth = d)

/-! Claim theorems. -/

/-- C1 (code bug): on input `[0x38, 0x80]` (negative integer −129, one
following byte, top bit set) with an output buffer of capacity 1 — exactly
one byte short of the 2-byte promoted result — the width promotion in
`do_negative_integer` pushes the write cursor to 2, past the capacity 1,
and the decode returns Success rather than OutputExhausted, contradicting
`assert(ctx->bufidx <= ctx->bufsize)` (decoder.c:155) and the spec
invariant. -/
theorem C1_write_cursor_overflow :
    (cbor_decode 8 [0] [0x38, 0x80]).2 = CBOR_SUCCESS ∧
    (cbor_decode 8 [0] [0x38, 0x80]).1.bufidx = 2 ∧
    (cbor_decode 8 [0] [0x38, 0x80]).1.bufsize = 1 := by
  decide

/-- C3 (code bug): an array header declaring 2 items (`0x82`) followed by
only one well-formed item (`0x01`) and end of input, decoded into a 1-byte
output buffer, returns Success: the loop exits on input exhaustion without
checking the item count against the declared budget. -/
theorem C3_truncated_array_returns_success :
    (cbor_decode 8 [0] [0x82, 0x01]).2 = CBOR_SUCCESS := by
  decide

/-- C4 (code bug): a top-level break marker at the end of input escapes the
entry point: `cbor_decode` returns the internal `CBOR_BREAK` code to the
caller instead of resolving it to Success or Malformed. -/
theorem C4_break_escapes_entry_point :
    (cbor_decode 8 [0] [0xFF]).2 = CBOR_BREAK := by
  decide

/-- C2 counterexample: encoding `n = 127` in 1 byte (`[0x38, 0x7F]`) does
NOT promote to a 2-byte negative result: with 2 bytes of capacity the
decoder writes the single byte `0x80` (−128), leaves the write cursor at 1,
and reports OutputExhausted for the unused second byte.  The top bit of the
1-byte encoding `0x7F` is clear, so no promotion occurs — contrary to the
claim's example. -/
theorem C2_counterexample_n127_does_not_promote :
    (cbor_decode 8 [0, 0] [0x38, 0x7F]).1.bufidx = 1 ∧
    (cbor_decode 8 [0, 0] [0x38, 0x7F]).1.buf = [0x80, 0xFF] ∧
    (cbor_decode 8 [0, 0] [0x38, 0x7F]).2 = CBOR_UNDERRUN := by
  decide

/-- C5 counterexample: a complete decode call (exactly the call
`cbor_decode` makes, with `CBOR_RECURSION_MAX_LEVEL = 2`) on input
`[0x81, 0x81, 0x81, 0x01]` exits with recursion depth 1, not the entry
depth 0: the `CBOR_EXCESSIVE` early return at decoder.c:121–123 skips the
decrement at decoder.c:152. -/
theorem C5_counterexample_depth_unbalanced :
    (decode_cbor 10 2 (init_context [0, 0, 0, 0] [0x81, 0x81, 0x81, 0x01])
        0).map (fun p => (p.1.recursion_depth, p.2)) =
      some (1, CBOR_EXCESSIVE) ∧
    (init_context [0, 0, 0, 0] [0x81, 0x81, 0x81, 0x01]).recursion_depth
      = 0 := by
  decide

/-- C8 (confirmed): for every header byte, the classifier
(`get_additional_info` followed by `get_following_bytes`) resolves the
following-bytes descriptor exactly as the spec rule `spec_following_bytes`
states: 0 below 24, INDEFINITE at 31, RESERVED on 28–30, and
`2^(ai−24)` (1, 2, 4, 8) on 24–27; it is total, with no failure case. -/
theorem C8_header_classifier_matches_spec :
    ∀ b : Nat, get_following_bytes (get_additional_info b)
      = encode_descriptor (spec_following_bytes (get_additional_info b)) := by
  have h : ∀ m, m < 32 → get_following_bytes m
      = encode_descriptor (spec_following_bytes m) := by decide
  intro b
  exact h _ (Nat.mod_lt _ (by omega))

set_option maxRecDepth 100000 in
set_option maxHeartbeats 4000000 in
/-- C2 as amended: for every negative integer encoded as `-(n+1)` with `n`
in 1, 2, 4 or 8 wire bytes and a zeroed output buffer of the result width,
decoding writes the little-endian two's-complement value of `-(n+1)` at the
result width and returns Success, where the result width doubles exactly
when the top bit of the value at its encoded width is set and the encoded
width is 1 or 2 (`n = 128` in 1 byte promotes to a 2-byte result;
`n = 127` does not); at width 8 no promotion occurs and the value is
written modulo `2^64`; at width 4 with the top bit set the cursor advances
to an 8-byte result but only the low 4 bytes of the complemented value are
written — the high 4 bytes keep the buffer's prior contents (here 0) in
place of the `0xFF` sign extension, so the stored 8-byte value is not the
two's complement of `-(n+1)`. -/
theorem C2_negative_integer_decoding :
    (∀ n : Nat, n < 2 ^ 8 →
      (cbor_decode 8 (List.replicate (if 128 ≤ n then 2 else 1) 0)
          [0x38, n]).2 = CBOR_SUCCESS ∧
      (cbor_decode 8 (List.replicate (if 128 ≤ n then 2 else 1) 0)
          [0x38, n]).1.buf
        = twosComplementBytesLE (n + 1) (if 128 ≤ n then 2 else 1) ∧
      (cbor_decode 8 (List.replicate (if 128 ≤ n then 2 else 1) 0)
          [0x38, n]).1.bufidx = (if 128 ≤ n then 2 else 1)) ∧
    (∀ n : Nat, n < 2 ^ 16 → n < 2 ^ 15 →
      (cbor_decode 8 [0, 0] [0x39, n / 256, n % 256]).2 = CBOR_SUCCESS ∧
      (cbor_decode 8 [0, 0] [0x39, n / 256, n % 256]).1.buf
        = twosComplementBytesLE (n + 1) 2 ∧
      (cbor_decode 8 [0, 0] [0x39, n / 256, n % 256]).1.bufidx = 2) ∧
    (∀ n : Nat, n < 2 ^ 16 → 2 ^ 15 ≤ n →
      (cbor_decode 8 [0, 0, 0, 0] [0x39, n / 256, n % 256]).2
        = CBOR_SUCCESS ∧
      (cbor_decode 8 [0, 0, 0, 0] [0x39, n / 256, n % 256]).1.buf
        = twosComplementBytesLE (n + 1) 4 ∧
      (cbor_decode 8 [0, 0, 0, 0] [0x39, n / 256, n % 256]).1.bufidx = 4) ∧
    (∀ n : Nat, n < 2 ^ 32 → n < 2 ^ 31 →
      (cbor_decode 8 [0, 0, 0, 0]
          [0x3A, n / 256 ^ 3 % 256, n / 256 ^ 2 % 256, n / 256 % 256,
            n % 256]).2 = CBOR_SUCCESS ∧
      (cbor_decode 8 [0, 0, 0, 0]
          [0x3A, n / 256 ^ 3 % 256, n / 256 ^ 2 % 256, n / 256 % 256,
            n % 256]).1.buf = twosComplementBytesLE (n + 1) 4 ∧
      (cbor_decode 8 [0, 0, 0, 0]
          [0x3A, n / 256 ^ 3 % 256, n / 256 ^ 2 % 256, n / 256 % 256,
            n % 256]).1.bufidx = 4) ∧
    (∀ n : Nat, n < 2 ^ 32 → 2 ^ 31 ≤ n →
      (cbor_decode 8 [0, 0, 0, 0, 0, 0, 0, 0]
          [0x3A, n / 256 ^ 3 % 256, n / 256 ^ 2 % 256, n / 256 % 256,
            n % 256]).2 = CBOR_SUCCESS ∧
      (cbor_decode 8 [0, 0, 0, 0, 0, 0, 0, 0]
          [0x3A, n / 256 ^ 3 % 256, n / 256 ^ 2 % 256, n / 256 % 256,
            n % 256]).1.buf
        = twosComplementBytesLE (n + 1) 4 ++ [0, 0, 0, 0] ∧
      (cbor_decode 8 [0, 0, 0, 0, 0, 0, 0, 0]
          [0x3A, n / 256 ^ 3 % 256, n / 256 ^ 2 % 256, n / 256 % 256,
            n % 256]).1.bufidx = 8) ∧
    (∀ n : Nat, n < 2 ^ 64 →
      (cbor_decode 8 [0, 0, 0, 0, 0, 0, 0, 0]
          [0x3B, n / 256 ^ 7 % 256, n / 256 ^ 6 % 256, n / 256 ^ 5 % 256,
            n / 256 ^ 4 % 256, n / 256 ^ 3 % 256, n / 256 ^ 2 % 256,
            n / 256 % 256, n % 256]).2 = CBOR_SUCCESS ∧
      (cbor_decode 8 [0, 0, 0, 0, 0, 0, 0, 0]
          [0x3B, n / 256 ^ 7 % 256, n / 256 ^ 6 % 256, n / 256 ^ 5 % 256,
            n / 256 ^ 4 % 256, n / 256 ^ 3 % 256, n / 256 ^ 2 % 256,
            n / 256 % 256, n % 256]).1.buf = twosComplementBytesLE (n + 1) 8 ∧
      (cbor_decode 8 [0, 0, 0, 0, 0, 0, 0, 0]
          [0x3B, n / 256 ^ 7 % 256, n / 256 ^ 6 % 256, n / 256 ^ 5 % 256,
            n / 256 ^ 4 % 256, n / 256 ^ 3 % 256, n / 256 ^ 2 % 256,
            n / 256 % 256, n % 256]).1.bufidx = 8) := by
  refine ⟨by decide, ?_, ?_, ?_, ?_, ?_⟩
  · intro n hn hp
    have htb : Nat.testBit (n % 256 + n / 256 * 256) 15 = false := by
      apply Nat.testBit_eq_false_of_lt
      omega
    simp [cbor_decode, initial_fuel, init_context, decode_cbor,
      decode_loop_with, get_major_type, get_additional_info,
      get_following_bytes, has_valid_buffers_for_following_bytes,
      do_negative_integer, do_unsigned_integer, copy_data, copy_data_le,
      read_val_be, write_val_be, DecodeContext.bufsize,
      DecodeContext.msgsize, INDEFINITE_VALUE, RESERVED_VALUE,
      twosComplementBytesLE, List.range_succ, htb]
    omega
  · intro n hn hp
    have htb : Nat.testBit (n % 256 + n / 256 * 256) 15 = true := by
      simp only [Nat.testBit_to_div_mod, decide_eq_true_eq]
      omega
    simp [cbor_decode, initial_fuel, init_context, decode_cbor,
      decode_loop_with, get_major_type, get_additional_info,
      get_following_bytes, has_valid_buffers_for_following_bytes,
      do_negative_integer, do_unsigned_integer, copy_data, copy_data_le,
      read_val_be, write_val_be, DecodeContext.bufsize,
      DecodeContext.msgsize, INDEFINITE_VALUE, RESERVED_VALUE,
      twosComplementBytesLE, List.range_succ, htb]
    omega
  · intro n hn hp
    have htb : Nat.testBit (n % 256 + n / 256 % 256 * 256
        + n / 65536 % 256 * 65536 + n / 16777216 % 256 * 16777216) 31
        = false := by
      apply Nat.testBit_eq_false_of_lt
      omega
    simp [cbor_decode, initial_fuel, init_context, decode_cbor,
      decode_loop_with, get_major_type, get_additional_info,
      get_following_bytes, has_valid_buffers_for_following_bytes,
      do_negative_integer, do_unsigned_integer, copy_data, copy_data_le,
      read_val_be, write_val_be, DecodeContext.bufsize,
      DecodeContext.msgsize, INDEFINITE_VALUE, RESERVED_VALUE,
      twosComplementBytesLE, List.range_succ, htb]
    omega
  · intro n hn hp
    have htb : Nat.testBit (n % 256 + n / 256 % 256 * 256
        + n / 65536 % 256 * 65536 + n / 16777216 % 256 * 16777216) 31
        = true := by
      simp only [Nat.testBit_to_div_mod, decide_eq_true_eq]
      omega
    simp [cbor_decode, initial_fuel, init_context, decode_cbor,
      decode_loop_with, get_major_type, get_additional_info,
      get_following_bytes, has_valid_buffers_for_following_bytes,
      do_negative_integer, do_unsigned_integer, copy_data, copy_data_le,
      read_val_be, write_val_be, DecodeContext.bufsize,
      DecodeContext.msgsize, INDEFINITE_VALUE, RESERVED_VALUE,
      twosComplementBytesLE, List.range_succ, htb]
    omega
  · intro n hn
    simp [cbor_decode, initial_fuel, init_context, decode_cbor,
      decode_loop_with, get_major_type, get_additional_info,
      get_following_bytes, has_valid_buffers_for_following_bytes,
      do_negative_integer, do_unsigned_integer, copy_data, copy_data_le,
      read_val_be, write_val_be, DecodeContext.bufsize,
      DecodeContext.msgsize, INDEFINITE_VALUE, RESERVED_VALUE,
      twosComplementBytesLE, List.range_succ]
    omega

/-- C2 witness: conjunct one of `C2_negative_integer_decoding` applied at
`n = 128`: the 1-byte encoding of −129 promotes to the 2-byte result
`0xFF7F` (little-endian `[0x7F, 0xFF]`). -/
theorem C2_negative_integer_decoding_witness :
    (cbor_decode 8 (List.replicate (if 128 ≤ 128 then 2 else 1) 0)
        [0x38, 128]).2 = CBOR_SUCCESS ∧
    (cbor_decode 8 (List.replicate (if 128 ≤ 128 then 2 else 1) 0)
        [0x38, 128]).1.buf
      = twosComplementBytesLE (128 + 1) (if 128 ≤ 128 then 2 else 1) ∧
    (cbor_decode 8 (List.replicate (if 128 ≤ 128 then 2 else 1) 0)
        [0x38, 128]).1.bufidx = (if 128 ≤ 128 then 2 else 1) :=
  C2_negative_integer_decoding.1 128 (by decide)

/-- C6 (confirmed): for every decode state whose cursors respect the
buffer bounds (the decoder's own invariant, asserted at decoder.c:154–155),
the bounds validator fails with Malformed (`CBOR_ILLEGAL`) on a RESERVED
descriptor or when fewer than `following_bytes + 1` bytes remain in the
input; fails with OutputExhausted (`CBOR_UNDERRUN`) when the input
suffices but fewer than `following_bytes` bytes of output capacity remain;
always passes on INDEFINITE; and the two failure kinds are distinct. -/
theorem C6_bounds_validator (ctx : DecodeContext)
    (hm : ctx.msgidx ≤ ctx.msgsize) (hb : ctx.bufidx ≤ ctx.bufsize) :
    (ctx.following_bytes = RESERVED_VALUE →
      has_valid_buffers_for_following_bytes ctx = some CBOR_ILLEGAL) ∧
    (ctx.following_bytes = INDEFINITE_VALUE →
      has_valid_buffers_for_following_bytes ctx = none) ∧
    (ctx.following_bytes ≠ RESERVED_VALUE →
      ctx.following_bytes ≠ INDEFINITE_VALUE →
      ((ctx.msgsize - ctx.msgidx < ctx.following_bytes + 1 →
          has_valid_buffers_for_following_bytes ctx = some CBOR_ILLEGAL) ∧
        (ctx.following_bytes + 1 ≤ ctx.msgsize - ctx.msgidx →
          ctx.bufsize - ctx.bufidx < ctx.following_bytes →
          has_valid_buffers_for_following_bytes ctx = some CBOR_UNDERRUN) ∧
        (ctx.following_bytes + 1 ≤ ctx.msgsize - ctx.msgidx →
          ctx.following_bytes ≤ ctx.bufsize - ctx.bufidx →
          has_valid_buffers_for_following_bytes ctx = none))) ∧
    CBOR_ILLEGAL ≠ CBOR_UNDERRUN := by
  refine ⟨?_, ?_, ?_, by decide⟩
  · intro h
    simp [has_valid_buffers_for_following_bytes, h]
  · intro h
    simp [has_valid_buffers_for_following_bytes, h, INDEFINITE_VALUE,
      RESERVED_VALUE]
  · intro hR hI
    unfold has_valid_buffers_for_following_bytes
    rw [if_neg hR, if_neg hI]
    refine ⟨?_, ?_, ?_⟩
    · intro h1
      rw [if_pos (by omega)]
    · intro h1 h2
      rw [if_neg (by omega), if_pos (by omega)]
    · intro h1 h2
      rw [if_neg (by omega), if_neg (by omega)]

/-- C6 witness: the validator at the reachable state produced by header
`0x1C` (additional-info 28, RESERVED) fails with Malformed. -/
theorem C6_bounds_validator_witness :
    has_valid_buffers_for_following_bytes
      { buf := [0], bufidx := 0, msg := [0x1C], msgidx := 0,
        major_type := 0, additional_info := 28,
        following_bytes := RESERVED_VALUE, recursion_depth := 1 }
      = some CBOR_ILLEGAL :=
  (C6_bounds_validator _ (by decide) (by decide)).1 (by decide)

/-- C7 (confirmed): whenever the decode loop returns Success to the entry
point, `cbor_decode` post-processes exactly as claimed: Overrun if the
input read cursor is strictly before the end of input, else
OutputExhausted if the write cursor is strictly below the output capacity,
else Success. -/
theorem C7_entry_point_success_postprocessing (maxLevel : Nat)
    (buf msg : List Nat) (ctx' : DecodeContext)
    (h : decode_cbor (initial_fuel msg) maxLevel (init_context buf msg) 0
      = some (ctx', CBOR_SUCCESS)) :
    cbor_decode maxLevel buf msg =
      (ctx', if ctx'.msgidx < ctx'.msgsize then CBOR_OVERRUN
        else if ctx'.bufidx < ctx'.bufsize then CBOR_UNDERRUN
        else CBOR_SUCCESS) := by
  simp only [cbor_decode, h]
  split_ifs <;> simp_all

/-- C7 witness: decoding `[0x01]` into a 1-byte buffer has the loop return
Success with both buffers exactly consumed, and the entry point returns
Success. -/
theorem C7_entry_point_success_postprocessing_witness :
    decode_cbor (initial_fuel [0x01]) 8 (init_context [0] [0x01]) 0
      = some (⟨[1], 1, [0x01], 1, 0, 1, 0, 0⟩, CBOR_SUCCESS) ∧
    cbor_decode 8 [0] [0x01] =
      ((⟨[1], 1, [0x01], 1, 0, 1, 0, 0⟩ : DecodeContext),
        if (⟨[1], 1, [0x01], 1, 0, 1, 0, 0⟩ : DecodeContext).msgidx
            < (⟨[1], 1, [0x01], 1, 0, 1, 0, 0⟩ : DecodeContext).msgsize then
          CBOR_OVERRUN
        else if (⟨[1], 1, [0x01], 1, 0, 1, 0, 0⟩ : DecodeContext).bufidx
            < (⟨[1], 1, [0x01], 1, 0, 1, 0, 0⟩ : DecodeContext).bufsize then
          CBOR_UNDERRUN
        else CBOR_SUCCESS) :=
  ⟨by decide, C7_entry_point_success_postprocessing 8 [0] [0x01] _ (by decide)⟩

/-- C9 (confirmed): decoding an empty input message writes nothing — the
final context is exactly the initial one — and the entry point returns
Success when the output capacity is 0 and OutputExhausted when it is
positive.  (The recursion limit must admit the one top-level loop entry.) -/
theorem C9_empty_input (maxLevel : Nat) (buf : List Nat)
    (h : 1 ≤ maxLevel) :
    cbor_decode maxLevel buf [] =
      (init_context buf [],
        if 0 < buf.length then CBOR_UNDERRUN else CBOR_SUCCESS) := by
  have h1 : ¬ (1 > maxLevel) := by omega
  simp [cbor_decode, initial_fuel, init_context, decode_cbor,
    decode_loop_with, DecodeContext.bufsize, DecodeContext.msgsize, h1]
  split_ifs <;> rfl

/-- C9 witness: a 1-byte buffer with empty input yields OutputExhausted
and an untouched buffer. -/
theorem C9_empty_input_witness :
    cbor_decode 8 [0] [] =
      (init_context [0] [],
        if 0 < ([0] : List Nat).length then CBOR_UNDERRUN
        else CBOR_SUCCESS) :=
  C9_empty_input 8 [0] (by decide)

/-- C10 (confirmed): whatever the output buffer initially holds, decoding
the one-byte negative integer `0x20` (−1) pre-fills `0xFF` over
`min(remaining capacity, 4)` bytes from the item's start position before
the 1-byte write-back, so with capacity 4 all four bytes become `0xFF`
while the final write cursor is 1: the three bytes at and beyond the
cursor were modified though they belong to no decoded item (the call
reports OutputExhausted); with capacity 2 the pre-fill is clamped to the
2 remaining bytes. -/
theorem C10_negative_prefill_frame_effect (b0 b1 b2 b3 : Nat) :
    (cbor_decode 8 [b0, b1, b2, b3] [0x20]).1.buf = [255, 255, 255, 255] ∧
    (cbor_decode 8 [b0, b1, b2, b3] [0x20]).1.bufidx = 1 ∧
    (cbor_decode 8 [b0, b1, b2, b3] [0x20]).2 = CBOR_UNDERRUN ∧
    (cbor_decode 8 [b0, b1] [0x20]).1.buf = [255, 255] ∧
    (cbor_decode 8 [b0, b1] [0x20]).1.bufidx = 1 := by
  simp [cbor_decode, initial_fuel, init_context, decode_cbor,
    decode_loop_with, get_major_type, get_additional_info,
    get_following_bytes, has_valid_buffers_for_following_bytes,
    do_negative_integer, do_unsigned_integer, copy_data, copy_data_le,
    read_val_be, write_val_be, DecodeContext.bufsize, DecodeContext.msgsize,
    INDEFINITE_VALUE, RESERVED_VALUE, List.range_succ]

theorem do_unsigned_integer_depth (ctx : DecodeContext) :
    (do_unsigned_integer ctx).1.recursion_depth = ctx.recursion_depth ∧
    (do_unsigned_integer ctx).2 ≠ CBOR_EXCESSIVE := by
  unfold do_unsigned_integer
  split_ifs <;> simp

theorem has_valid_buffers_for_following_bytes_err (ctx : DecodeContext)
    (e : CborError)
    (h : has_valid_buffers_for_following_bytes ctx = some e) :
    e = CBOR_ILLEGAL ∨ e = CBOR_UNDERRUN := by
  unfold has_valid_buffers_for_following_bytes at h
  split_ifs at h <;> simp_all

theorem do_negative_integer_depth (ctx : DecodeContext) :
    (do_negative_integer ctx).1.recursion_depth = ctx.recursion_depth ∧
    (do_negative_integer ctx).2 ≠ CBOR_EXCESSIVE := by
  have h := do_unsigned_integer_depth ctx
  simp only [do_negative_integer]
  split_ifs <;> simp_all

theorem go_get_item_length_depth (ctx : DecodeContext) :
    (go_get_item_length ctx).1.recursion_depth = ctx.recursion_depth := by
  unfold go_get_item_length
  split_ifs <;> simp

theorem do_string_depth (ctx : DecodeContext) :
    (do_string ctx).1.recursion_depth = ctx.recursion_depth ∧
    (do_string ctx).2 ≠ CBOR_EXCESSIVE := by
  have h := go_get_item_length_depth ctx
  simp only [do_string]
  split_ifs <;> simp_all

theorem do_float_and_other_depth (ctx : DecodeContext) :
    (do_float_and_other ctx).1.recursion_depth = ctx.recursion_depth ∧
    (do_float_and_other ctx).2 ≠ CBOR_EXCESSIVE := by
  simp only [do_float_and_other]
  split_ifs <;> (try simp) <;>
    split <;>
    first
      | (next e he =>
          rcases has_valid_buffers_for_following_bytes_err _ e he with h | h <;>
            simp_all)
      | simp_all [do_unsigned_integer_depth]

theorem do_tag_depth (ctx : DecodeContext) :
    (do_tag ctx).1.recursion_depth = ctx.recursion_depth ∧
    (do_tag ctx).2 ≠ CBOR_EXCESSIVE := by
  simp [do_tag]

theorem do_unsigned_integer_depth_eq (c c2 : DecodeContext) (e2 : CborError)
    (h : do_unsigned_integer c = (c2, e2)) :
    c2.recursion_depth = c.recursion_depth ∧ e2 ≠ CBOR_EXCESSIVE := by
  have hh := do_unsigned_integer_depth c
  rw [h] at hh
  exact hh

theorem do_negative_integer_depth_eq (c c2 : DecodeContext) (e2 : CborError)
    (h : do_negative_integer c = (c2, e2)) :
    c2.recursion_depth = c.recursion_depth ∧ e2 ≠ CBOR_EXCESSIVE := by
  have hh := do_negative_integer_depth c
  rw [h] at hh
  exact hh

theorem do_string_depth_eq (c c2 : DecodeContext) (e2 : CborError)
    (h : do_string c = (c2, e2)) :
    c2.recursion_depth = c.recursion_depth ∧ e2 ≠ CBOR_EXCESSIVE := by
  have hh := do_string_depth c
  rw [h] at hh
  exact hh

theorem do_tag_depth_eq (c c2 : DecodeContext) (e2 : CborError)
    (h : do_tag c = (c2, e2)) :
    c2.recursion_depth = c.recursion_depth ∧ e2 ≠ CBOR_EXCESSIVE := by
  have hh := do_tag_depth c
  rw [h] at hh
  exact hh

theorem do_float_and_other_depth_eq (c c2 : DecodeContext) (e2 : CborError)
    (h : do_float_and_other c = (c2, e2)) :
    c2.recursion_depth = c.recursion_depth ∧ e2 ≠ CBOR_EXCESSIVE := by
  have hh := do_float_and_other_depth c
  rw [h] at hh
  exact hh

theorem decode_loop_with_depth
    (dc : DecodeContext → Nat → Option (DecodeContext × CborError))
    (hdc : ∀ c mi out, dc c mi = some out → DepthSpec c.recursion_depth out) :
    ∀ (fuel : Nat) (ctx : DecodeContext) (maxitem item : Nat)
      (out : DecodeContext × CborError),
      decode_loop_with dc fuel ctx maxitem item = some out →
      DepthSpec ctx.recursion_depth out := by
  intro fuel
  induction fuel with
  | zero =>
    intro ctx maxitem item out h
    simp [decode_loop_with] at h
  | succ fuel ih =>
    intro ctx maxitem item out h
    simp only [decode_loop_with] at h
    split at h
    case isFalse =>
      simp only [Option.some.injEq] at h
      subst h
      exact Or.inr ⟨by simp, rfl⟩
    case isTrue hguard =>
      split at h
      case h_1 e he =>
        simp only [Option.some.injEq] at h
        subst h
        rcases has_valid_buffers_for_following_bytes_err _ e he with h' | h' <;>
          · subst h'
            exact Or.inr ⟨by simp, rfl⟩
      case h_2 he =>
        split at h
        case h_1 => exact absurd h (by simp)
        case h_2 c2 e2 heq =>
          have hd2 : DepthSpec ctx.recursion_depth (c2, e2) := by
            split at heq
            case h_1 =>
              rw [Option.some.injEq] at heq
              obtain ⟨hd, hne⟩ := do_unsigned_integer_depth_eq _ _ _ heq
              exact Or.inr ⟨hne, hd⟩
            case h_2 =>
              rw [Option.some.injEq] at heq
              obtain ⟨hd, hne⟩ := do_negative_integer_depth_eq _ _ _ heq
              exact Or.inr ⟨hne, hd⟩
            case h_3 =>
              rw [Option.some.injEq] at heq
              obtain ⟨hd, hne⟩ := do_string_depth_eq _ _ _ heq
              exact Or.inr ⟨hne, hd⟩
            case h_4 =>
              rw [Option.some.injEq] at heq
              obtain ⟨hd, hne⟩ := do_string_depth_eq _ _ _ heq
              exact Or.inr ⟨hne, hd⟩
            case h_5 =>
              have hh := hdc _ _ _ heq
              rwa [go_get_item_length_depth] at hh
            case h_6 =>
              have hh := hdc _ _ _ heq
              rwa [go_get_item_length_depth] at hh
            case h_7 =>
              rw [Option.some.injEq] at heq
              obtain ⟨hd, hne⟩ := do_tag_depth_eq _ _ _ heq
              exact Or.inr ⟨hne, hd⟩
            case h_8 =>
              rw [Option.some.injEq] at heq
              obtain ⟨hd, hne⟩ := do_float_and_other_depth_eq _ _ _ heq
              exact Or.inr ⟨hne, hd⟩
          split_ifs at h with hc1 hc2 hc3
          · simp only [Option.some.injEq] at h
            subst h
            rcases hd2 with ⟨hx, _⟩ | h2
            · rw [hc1.1] at hx
              cases hx
            · exact Or.inr h2
          · simp only [Option.some.injEq] at h
            subst h
            exact hd2
          · simp only [Option.some.injEq] at h
            subst h
            have hne2 : e2 ≠ CBOR_EXCESSIVE := by
              intro hcon
              subst hcon
              exact hc2 ⟨by simp, by simp⟩
            rcases hd2 with ⟨hx, _⟩ | ⟨_, hd⟩
            · exact absurd hx hne2
            · exact Or.inr ⟨by simp, hd⟩
          · have hne2 : e2 ≠ CBOR_EXCESSIVE := by
              intro hcon
              subst hcon
              exact hc2 ⟨by simp, by simp⟩
            rcases hd2 with ⟨hx, _⟩ | ⟨_, hd⟩
            · exact absurd hx hne2
            · have hh := ih c2 maxitem (item + 1) out h
              rwa [hd] at hh

set_option maxRecDepth 10000 in
/-- C5 as amended: a call to the decode loop (`decode_cbor`) restores the
recursion-depth counter to its entry value on every exit path EXCEPT when
it returns Excessive — i.e. when the depth limit was exceeded at this or a
nested level, via the early return at decoder.c:121–123 that skips the
decrement at decoder.c:152 — in which case the counter is left exactly one
above its entry value. -/
theorem C5_depth_balanced_except_excessive :
    ∀ (fuel maxLevel : Nat) (ctx : DecodeContext) (maxitem : Nat)
      (out : DecodeContext × CborError),
      decode_cbor fuel maxLevel ctx maxitem = some out →
      DepthSpec ctx.recursion_depth out := by
  intro fuel
  induction fuel with
  | zero =>
    intro maxLevel ctx maxitem out h
    simp [decode_cbor] at h
  | succ fuel ih =>
    intro maxLevel ctx maxitem out h
    simp only [decode_cbor] at h
    split at h
    case isTrue hd =>
      simp only [Option.some.injEq] at h
      subst h
      exact Or.inl ⟨rfl, rfl⟩
    case isFalse hd =>
      split at h
      case h_1 => exact absurd h (by simp)
      case h_2 ctx' err heq =>
        have hl := decode_loop_with_depth
          (fun c mi => decode_cbor fuel maxLevel c mi)
          (fun c mi o ho => ih maxLevel c mi o ho) fuel _ maxitem 0 _ heq
        simp only [Option.some.injEq] at h
        subst h
        rcases hl with ⟨hx, hdep⟩ | ⟨hx, hdep⟩
        · refine Or.inl ⟨hx, ?_⟩
          simp only at hdep
          simp [hdep]
        · refine Or.inr ⟨hx, ?_⟩
          simp only at hdep
          simp [hdep]

/-- C5 witness: the depth discipline applied to the complete decode of
`[0x01]`, which exits with the depth restored to 0. -/
theorem C5_depth_balanced_except_excessive_witness :
    DepthSpec (init_context [0] [0x01]).recursion_depth
      ((⟨[1], 1, [0x01], 1, 0, 1, 0, 0⟩ : DecodeContext), CBOR_SUCCESS) :=
  C5_depth_balanced_except_excessive (initial_fuel [0x01]) 8
    (init_context [0] [0x01]) 0 _ (by decide)

/-!  Fuel adequacy: `decode_cbor` and the loop never decrease the input
read cursor, every continuing loop iteration strictly advances it, and a
container recursion starts past its consumed header, so fuel
`2 * (msgsize - msgidx) + 2` always suffices and `cbor_decode`'s
fuel-exhaustion branch is dead code. -/

theorem do_unsigned_integer_msg (ctx : DecodeContext) :
    (do_unsigned_integer ctx).1.msg = ctx.msg ∧
    ctx.msgidx ≤ (do_unsigned_integer ctx).1.msgidx ∧
    ((do_unsigned_integer ctx).2 = CBOR_SUCCESS ∨
        (do_unsigned_integer ctx).2 = CBOR_BREAK →
      ctx.msgidx + 1 ≤ (do_unsigned_integer ctx).1.msgidx) := by
  unfold do_unsigned_integer
  split_ifs <;> simp <;> omega

theorem do_negative_integer_msg (ctx : DecodeContext) :
    (do_negative_integer ctx).1.msg = ctx.msg ∧
    ctx.msgidx ≤ (do_negative_integer ctx).1.msgidx ∧
    ((do_negative_integer ctx).2 = CBOR_SUCCESS ∨
        (do_negative_integer ctx).2 = CBOR_BREAK →
      ctx.msgidx + 1 ≤ (do_negative_integer ctx).1.msgidx) := by
  have h := do_unsigned_integer_msg ctx
  simp only [do_negative_integer]
  split_ifs <;> simp_all

theorem go_get_item_length_msg (ctx : DecodeContext) :
    (go_get_item_length ctx).1.msg = ctx.msg ∧
    ctx.msgidx + 1 ≤ (go_get_item_length ctx).1.msgidx := by
  unfold go_get_item_length
  split_ifs <;> simp <;> omega

theorem do_string_msg (ctx : DecodeContext) :
    (do_string ctx).1.msg = ctx.msg ∧
    ctx.msgidx ≤ (do_string ctx).1.msgidx ∧
    ((do_string ctx).2 = CBOR_SUCCESS ∨ (do_string ctx).2 = CBOR_BREAK →
      ctx.msgidx + 1 ≤ (do_string ctx).1.msgidx) := by
  have h := go_get_item_length_msg ctx
  simp only [do_string]
  split_ifs <;> simp_all <;> omega

theorem do_tag_msg (ctx : DecodeContext) :
    (do_tag ctx).1.msg = ctx.msg ∧
    ctx.msgidx ≤ (do_tag ctx).1.msgidx ∧
    ((do_tag ctx).2 = CBOR_SUCCESS ∨ (do_tag ctx).2 = CBOR_BREAK →
      ctx.msgidx + 1 ≤ (do_tag ctx).1.msgidx) := by
  simp [do_tag]

theorem do_unsigned_integer_msg_eq (ctx : DecodeContext)
    (h : ctx.following_bytes ≠ INDEFINITE_VALUE) :
    (do_unsigned_integer ctx).1.msg = ctx.msg ∧
    (do_unsigned_integer ctx).1.msgidx
      = ctx.msgidx + ctx.following_bytes + 1 := by
  unfold do_unsigned_integer
  rw [if_neg h]
  split_ifs <;> simp

theorem do_float_and_other_msg (ctx : DecodeContext) :
    (do_float_and_other ctx).1.msg = ctx.msg ∧
    ctx.msgidx ≤ (do_float_and_other ctx).1.msgidx ∧
    ((do_float_and_other ctx).2 = CBOR_SUCCESS ∨
        (do_float_and_other ctx).2 = CBOR_BREAK →
      ctx.msgidx + 1 ≤ (do_float_and_other ctx).1.msgidx) := by
  simp only [do_float_and_other]
  by_cases h1 : ctx.following_bytes = INDEFINITE_VALUE
  · simp [h1]
  · rw [if_neg h1]
    by_cases h2 : ctx.following_bytes = 1
    · rw [if_pos h2]
      split
      · simp
      · have hu := do_unsigned_integer_msg_eq
          { ctx with following_bytes := 0, msgidx := ctx.msgidx + 1,
                     additional_info := ctx.msg.getD (ctx.msgidx + 1) 0 }
          (by simp [INDEFINITE_VALUE])
        split_ifs <;> simp_all <;> omega
    · rw [if_neg h2]
      split
      · next e he =>
          rcases has_valid_buffers_for_following_bytes_err _ e he with h | h <;>
            simp_all
      · have hu := do_unsigned_integer_msg_eq ctx h1
        split_ifs <;> simp_all <;> omega

theorem loop_step_sufficient
    (dc : DecodeContext → Nat → Option (DecodeContext × CborError))
    (g maxitem item : Nat) (c2 : DecodeContext) (e2 : CborError)
    (hrec : e2 = CBOR_SUCCESS ∨ e2 = CBOR_BREAK →
      ∃ out, decode_loop_with dc g c2 maxitem (item + 1) = some out ∧
        out.1.msg = c2.msg ∧ c2.msgidx ≤ out.1.msgidx) :
    ∃ out,
      (if e2 = CBOR_BREAK ∧ c2.msgidx = c2.msgsize then some (c2, e2)
        else if e2 ≠ CBOR_BREAK ∧ e2 ≠ CBOR_SUCCESS then some (c2, e2)
        else if item + 1 ≥ maxitem ∧ maxitem > 0 then some (c2, CBOR_SUCCESS)
        else decode_loop_with dc g c2 maxitem (item + 1)) = some out ∧
      out.1.msg = c2.msg ∧ c2.msgidx ≤ out.1.msgidx := by
  split_ifs with hb1 hb2 hb3
  · exact ⟨_, rfl, rfl, le_refl _⟩
  · exact ⟨_, rfl, rfl, le_refl _⟩
  · exact ⟨_, rfl, rfl, le_refl _⟩
  · apply hrec
    by_cases hbk : e2 = CBOR_BREAK
    · exact Or.inr hbk
    · left
      by_cases hsc : e2 = CBOR_SUCCESS
      · exact hsc
      · exact absurd ⟨hbk, hsc⟩ hb2

theorem loop_continue_sufficient
    (dc : DecodeContext → Nat → Option (DecodeContext × CborError))
    (g maxitem item : Nat) (ctx c2 : DecodeContext) (e2 : CborError)
    (hq1 : c2.msg = ctx.msg) (hq2 : ctx.msgidx ≤ c2.msgidx)
    (hq3 : e2 = CBOR_SUCCESS ∨ e2 = CBOR_BREAK → ctx.msgidx + 1 ≤ c2.msgidx)
    (hguard1 : ctx.msgidx < ctx.msgsize)
    (h1 : 2 * (ctx.msgsize - ctx.msgidx) + 1 ≤ g + 1)
    (hih : ∀ (c : DecodeContext) (mx it : Nat),
      2 * (c.msgsize - c.msgidx) + 1 ≤ g →
      ∃ out, decode_loop_with dc g c mx it = some out ∧
        out.1.msg = c.msg ∧ c.msgidx ≤ out.1.msgidx) :
    ∃ out,
      (if e2 = CBOR_BREAK ∧ c2.msgidx = c2.msgsize then some (c2, e2)
        else if e2 ≠ CBOR_BREAK ∧ e2 ≠ CBOR_SUCCESS then some (c2, e2)
        else if item + 1 ≥ maxitem ∧ maxitem > 0 then some (c2, CBOR_SUCCESS)
        else decode_loop_with dc g c2 maxitem (item + 1)) = some out ∧
      out.1.msg = ctx.msg ∧ ctx.msgidx ≤ out.1.msgidx := by
  obtain ⟨out, ho, hA, hB⟩ :=
    loop_step_sufficient dc g maxitem item c2 e2 (fun hOK => by
      apply hih
      have hms : c2.msgsize = ctx.msgsize := by
        simp [DecodeContext.msgsize, hq1]
      have := hq3 hOK
      omega)
  exact ⟨out, ho, by rw [hA, hq1], le_trans hq2 hB⟩

theorem decode_loop_with_sufficient
    (N : Nat) (dc : DecodeContext → Nat → Option (DecodeContext × CborError))
    (hdc : ∀ c mi, 2 * (c.msgsize - c.msgidx) + 2 ≤ N →
      ∃ out, dc c mi = some out ∧ out.1.msg = c.msg ∧ c.msgidx ≤ out.1.msgidx) :
    ∀ (g : Nat), g ≤ N → ∀ (ctx : DecodeContext) (maxitem item : Nat),
      2 * (ctx.msgsize - ctx.msgidx) + 1 ≤ g →
      ∃ out, decode_loop_with dc g ctx maxitem item = some out ∧
        out.1.msg = ctx.msg ∧ ctx.msgidx ≤ out.1.msgidx := by
  intro g
  induction g with
  | zero =>
    intro _ ctx maxitem item h1
    omega
  | succ g ih =>
    intro hgN ctx maxitem item h1
    simp only [decode_loop_with]
    by_cases hguard : ctx.msgidx < ctx.msgsize ∧ ctx.bufidx < ctx.bufsize
    case neg =>
      rw [if_neg hguard]
      exact ⟨_, rfl, rfl, le_refl _⟩
    case pos =>
      rw [if_pos hguard]
      generalize hH : ({ ctx with
        major_type := get_major_type (ctx.msg.getD ctx.msgidx 0),
        additional_info := get_additional_info (ctx.msg.getD ctx.msgidx 0),
        following_bytes :=
          get_following_bytes
            (get_additional_info (ctx.msg.getD ctx.msgidx 0)) } :
        DecodeContext) = ctxH
      have hHm : ctxH.msg = ctx.msg := by rw [← hH]
      have hHi : ctxH.msgidx = ctx.msgidx := by rw [← hH]
      rcases hv : has_valid_buffers_for_following_bytes ctxH with - | e
      case some =>
        exact ⟨(ctxH, e), rfl, hHm, le_of_eq hHi.symm⟩
      case none =>
        rcases hm : get_major_type (ctx.msg.getD ctx.msgidx 0)
          with - | - | - | - | - | - | - | k
        · -- major type 0: unsigned integer
          have hu := do_unsigned_integer_msg ctxH
          exact loop_continue_sufficient dc g maxitem item ctx
            (do_unsigned_integer ctxH).1 (do_unsigned_integer ctxH).2
            (hu.1.trans hHm) (by have := hu.2.1; omega)
            (fun hOK => by have := hu.2.2 hOK; omega)
            hguard.1 h1 (ih (Nat.le_of_succ_le hgN))
        · have hu := do_negative_integer_msg ctxH
          exact loop_continue_sufficient dc g maxitem item ctx
            (do_negative_integer ctxH).1 (do_negative_integer ctxH).2
            (hu.1.trans hHm) (by have := hu.2.1; omega)
            (fun hOK => by have := hu.2.2 hOK; omega)
            hguard.1 h1 (ih (Nat.le_of_succ_le hgN))
        · have hu := do_string_msg ctxH
          exact loop_continue_sufficient dc g maxitem item ctx
            (do_string ctxH).1 (do_string ctxH).2
            (hu.1.trans hHm) (by have := hu.2.1; omega)
            (fun hOK => by have := hu.2.2 hOK; omega)
            hguard.1 h1 (ih (Nat.le_of_succ_le hgN))
        · have hu := do_string_msg ctxH
          exact loop_continue_sufficient dc g maxitem item ctx
            (do_string ctxH).1 (do_string ctxH).2
            (hu.1.trans hHm) (by have := hu.2.1; omega)
            (fun hOK => by have := hu.2.2 hOK; omega)
            hguard.1 h1 (ih (Nat.le_of_succ_le hgN))
        · have hgg := go_get_item_length_msg ctxH
          obtain ⟨pr, hpr, hm1, hm2⟩ :=
            hdc (go_get_item_length ctxH).1 (go_get_item_length ctxH).2 (by
              have hms : (go_get_item_length ctxH).1.msgsize = ctx.msgsize := by
                simp [DecodeContext.msgsize, hgg.1, hHm]
              have := hgg.2
              omega)
          rw [hpr]
          exact loop_continue_sufficient dc g maxitem item ctx pr.1 pr.2
            (hm1.trans (hgg.1.trans hHm))
            (by have := hgg.2; omega)
            (fun _ => by have := hgg.2; omega)
            hguard.1 h1 (ih (Nat.le_of_succ_le hgN))
        · have hgg := go_get_item_length_msg ctxH
          obtain ⟨pr, hpr, hm1, hm2⟩ :=
            hdc (go_get_item_length ctxH).1 (go_get_item_length ctxH).2 (by
              have hms : (go_get_item_length ctxH).1.msgsize = ctx.msgsize := by
                simp [DecodeContext.msgsize, hgg.1, hHm]
              have := hgg.2
              omega)
          rw [hpr]
          exact loop_continue_sufficient dc g maxitem item ctx pr.1 pr.2
            (hm1.trans (hgg.1.trans hHm))
            (by have := hgg.2; omega)
            (fun _ => by have := hgg.2; omega)
            hguard.1 h1 (ih (Nat.le_of_succ_le hgN))
        · have hu := do_tag_msg ctxH
          exact loop_continue_sufficient dc g maxitem item ctx
            (do_tag ctxH).1 (do_tag ctxH).2
            (hu.1.trans hHm) (by have := hu.2.1; omega)
            (fun hOK => by have := hu.2.2 hOK; omega)
            hguard.1 h1 (ih (Nat.le_of_succ_le hgN))
        · have hu := do_float_and_other_msg ctxH
          exact loop_continue_sufficient dc g maxitem item ctx
            (do_float_and_other ctxH).1 (do_float_and_other ctxH).2
            (hu.1.trans hHm) (by have := hu.2.1; omega)
            (fun hOK => by have := hu.2.2 hOK; omega)
            hguard.1 h1 (ih (Nat.le_of_succ_le hgN))

theorem decode_cbor_sufficient :
    ∀ (fuel maxLevel : Nat) (ctx : DecodeContext) (maxitem : Nat),
      2 * (ctx.msgsize - ctx.msgidx) + 2 ≤ fuel →
      ∃ out, decode_cbor fuel maxLevel ctx maxitem = some out ∧
        out.1.msg = ctx.msg ∧ ctx.msgidx ≤ out.1.msgidx := by
  intro fuel
  induction fuel with
  | zero =>
    intro maxLevel ctx maxitem h
    omega
  | succ fuel ih =>
    intro maxLevel ctx maxitem h
    simp only [decode_cbor]
    by_cases hd : ctx.recursion_depth + 1 > maxLevel
    · rw [if_pos hd]
      exact ⟨_, rfl, rfl, le_refl _⟩
    · rw [if_neg hd]
      obtain ⟨out, ho, hm, hmono⟩ :=
        decode_loop_with_sufficient fuel
          (fun c mi => decode_cbor fuel maxLevel c mi)
          (fun c mi hc => ih maxLevel c mi hc) fuel (le_refl _)
          { ctx with recursion_depth := ctx.recursion_depth + 1 }
          maxitem 0 (by
            have e1 : ({ ctx with
                recursion_depth := ctx.recursion_depth + 1 } :
                DecodeContext).msgsize = ctx.msgsize := rfl
            have e2 : ({ ctx with
                recursion_depth := ctx.recursion_depth + 1 } :
                DecodeContext).msgidx = ctx.msgidx := rfl
            omega)
      rw [ho]
      exact ⟨_, rfl, hm, hmono⟩

/-- The fuel `cbor_decode` supplies (`initial_fuel`, i.e. `2*msgsize + 2`)
is always sufficient: the fuel-exhaustion branch of `cbor_decode` is
unreachable.  (Each continuing loop iteration strictly advances the input
read cursor, and each container recursion starts past its consumed
header.) -/
theorem decode_cbor_fuel_sufficient (maxLevel : Nat) (buf msg : List Nat)
    (maxitem : Nat) :
    ∃ out, decode_cbor (initial_fuel msg) maxLevel (init_context buf msg)
      maxitem = some out := by
  obtain ⟨out, ho, -, -⟩ :=
    decode_cbor_sufficient (initial_fuel msg) maxLevel
      (init_context buf msg) maxitem (by
        simp [initial_fuel, init_context, DecodeContext.msgsize])
  exact ⟨out, ho⟩

end Cbor
